import Mathlib

/-!
Shallow embedding of the Bitbar minting application (Monitor servers
`server.js` / `server4.js` and Minter worker `mint.js` / the unnamed worker
draft), together with theorems settling the specification claims.

Conventions: JS numbers that hold sat amounts, timestamps and counters are
embedded as `Nat`; nullable / possibly-undefined JS values as `Option`;
the SQLite `transactions` table as a list of rows; `Date.now()` as an
explicit `now : Nat` parameter; the network fetch of transaction details as
an explicit oracle function.
-/

/-- `config.bitcoinAddress` (identical in `server.js` and `server4.js`). -/
def bitcoinAddress : String :=
  "bc1pte4f7x5e5xpr6u2y3rr9mfynw989u9g8zlp7hg0pgc89n5tt3r7qevnwpr"

/-- `config.minimumSatsForBitbar` (identical in both server drafts). -/
def minimumSatsForBitbar : Nat := 1641

/-- An input's `prevout` object (field `scriptpubkey_address` may be absent). -/
structure Prevout where
  scriptpubkey_address : Option String
deriving Repr, DecidableEq

/-- One entry of a transaction's `vin` array; `prevout` may be absent. -/
structure VinEntry where
  prevout : Option Prevout
deriving Repr, DecidableEq

/-- One entry of a transaction's `vout` array. -/
structure TxOutput where
  scriptpubkey_address : Option String
  value : Nat
deriving Repr, DecidableEq

/-- An upstream transaction object as consumed by `processTransaction`:
`txid`, `vout[]`, `status.block_height` (optional), `vin[]`. -/
structure UpstreamTx where
  txid : String
  vout : List TxOutput
  block_height : Option Nat
  vin : List VinEntry
deriving Repr, DecidableEq

/-- A row of the SQLite `transactions` table (see `initializeDatabase`).
Columns `inscription_id` and `inscription_timestamp` are NULL until a
confirm-mint writes them; `minting_status` is the TEXT column holding
one of the strings written by the code. -/
structure TxRecord where
  txid : String
  timestamp : Nat
  amount : Nat
  block_height : Option Nat
  requires_minting : Bool
  minting_status : String
  sender_address : Option String
  confirmations : Nat
  inscription_id : Option String
  inscription_timestamp : Option Nat
deriving Repr, DecidableEq

/-- The `transactions` table, as the list of its rows. -/
abbrev Ledger := List TxRecord

/-- `db.get('SELECT * FROM transactions WHERE txid = ?', txid)`. -/
def dbGet (db : Ledger) (txid : String) : Option TxRecord :=
  db.find? (fun r => r.txid == txid)

/-- Sender extraction shared by both server drafts:
`if (x.vin && x.vin[0] && x.vin[0].prevout) sender = x.vin[0].prevout.scriptpubkey_address`. -/
def firstInputSender (vin : List VinEntry) : Option String :=
  match vin with
  | [] => none
  | v :: _ =>
    match v.prevout with
    | none => none
    | some p => p.scriptpubkey_address

/-- The received-amount accumulation both drafts run over `vout`
(`reduce` in `server4.js`, a `for` loop in `server.js`): sum the `value`
of every output whose `scriptpubkey_address` equals the watched address. -/
def receivedAmountOf (vout : List TxOutput) : Nat :=
  vout.foldl
    (fun total output =>
      if output.scriptpubkey_address == some bitcoinAddress then total + output.value
      else total)
    0

namespace Server4

/-- Response of `fetchTransactionDetails` (`GET {base}/tx/{txid}`): only the
`vin` array is consulted by `processTransaction`. -/
structure TxDetails where
  vin : List VinEntry
deriving Repr, DecidableEq

/-- `processTransaction` of `server4.js` (lines 110-161).  The network call
`fetchTransactionDetails` is passed in as an oracle (it returns `null` on
fetch failure, embedded as `none`); `Date.now()` as `now`.  Returns the
updated table and the value the function returns (`null` when the txid
already exists). -/
def processTransaction (fetchDetails : String → Option TxDetails) (now : Nat)
    (db : Ledger) (transaction : UpstreamTx) : Ledger × Option TxRecord :=
  match dbGet db transaction.txid with
  | some _ => (db, none)
  | none =>
    let senderAddress : Option String :=
      match fetchDetails transaction.txid with
      | none => none
      | some txDetails => firstInputSender txDetails.vin
    let receivedAmount : Nat := receivedAmountOf transaction.vout
    let txInfo : TxRecord :=
      { txid := transaction.txid
        timestamp := now
        amount := receivedAmount
        block_height := transaction.block_height
        requires_minting := decide (receivedAmount ≥ minimumSatsForBitbar)
        minting_status :=
          if receivedAmount ≥ minimumSatsForBitbar then "pending" else "not_required"
        sender_address := senderAddress
        confirmations := 0
        inscription_id := none
        inscription_timestamp := none }
    (db ++ [txInfo], some txInfo)

/-- The ingestion loop of `monitorAddress` in `server4.js`: process each
upstream transaction in order (the optional retention `DELETE` is a separate
statement, not part of ingestion). -/
def monitorTick (fetchDetails : String → Option TxDetails) (now : Nat)
    (db : Ledger) (transactions : List UpstreamTx) : Ledger :=
  transactions.foldl (fun acc tx => (processTransaction fetchDetails now acc tx).1) db

end Server4

namespace Server

/-- JS `x || null` applied to an optional numeric field: `0` is falsy, so a
present height of `0` is stored as NULL (`server.js` line 115). -/
def orNullNat (h : Option Nat) : Option Nat :=
  match h with
  | none => none
  | some v => if v == 0 then none else some v

/-- `processTransaction` of `server.js` (lines 84-144).  The sender is read
from the passed transaction object itself; a transaction whose received
amount is `0` is skipped without persisting. -/
def processTransaction (now : Nat) (db : Ledger) (txDetails : UpstreamTx) :
    Ledger × Option TxRecord :=
  match dbGet db txDetails.txid with
  | some _ => (db, none)
  | none =>
    let senderAddress : Option String := firstInputSender txDetails.vin
    let receivedAmount : Nat := receivedAmountOf txDetails.vout
    if receivedAmount == 0 then (db, none)
    else
      let txInfo : TxRecord :=
        { txid := txDetails.txid
          timestamp := now
          amount := receivedAmount
          block_height := orNullNat txDetails.block_height
          requires_minting := decide (receivedAmount ≥ minimumSatsForBitbar)
          minting_status :=
            if receivedAmount ≥ minimumSatsForBitbar then "pending" else "not_required"
          sender_address := senderAddress
          confirmations := 0
          inscription_id := none
          inscription_timestamp := none }
      (db ++ [txInfo], some txInfo)

/-- The ingestion loop of `monitorAddress` in `server.js`. -/
def monitorTick (now : Nat) (db : Ledger) (transactions : List UpstreamTx) : Ledger :=
  transactions.foldl (fun acc tx => (processTransaction now acc tx).1) db

end Server

/-- The HTTP responses of `POST /api/confirm-mint`. -/
inductive ConfirmResponse where
  /-- status 400, body an error message. -/
  | badRequest (error : String)
  /-- status 404, body an error message. -/
  | notFound (error : String)
  /-- status 200, body a success flag and the fetched transaction row. -/
  | ok (transaction : TxRecord)
deriving Repr, DecidableEq

/-- `POST /api/confirm-mint`, identical in `server.js` (lines 231-259) and
`server4.js` (lines 263-292): reject a falsy `txid` (absent or empty string)
with 400; 404 when no row matches; 400 when the row is already `completed`;
otherwise UPDATE the row to `completed` with the request's `inscription_id`
(possibly absent, stored as NULL) and `inscription_timestamp = Date.now()`,
and answer 200 with the row as fetched *before* the UPDATE. -/
def confirmMint (now : Nat) (db : Ledger) (txid : Option String)
    (inscription_id : Option String) : Ledger × ConfirmResponse :=
  match txid with
  | none => (db, .badRequest "Transaction ID required")
  | some tid =>
    if tid == "" then (db, .badRequest "Transaction ID required")
    else
      match dbGet db tid with
      | none => (db, .notFound "Transaction not found")
      | some transaction =>
        if transaction.minting_status == "completed" then
          (db, .badRequest "Transaction already minted")
        else
          (db.map (fun r =>
            if r.txid == tid then
              { r with
                minting_status := "completed"
                inscription_id := inscription_id
                inscription_timestamp := some now }
            else r),
           .ok transaction)

/-- The row shape returned by `GET /api/pending-mints`
(`SELECT txid, amount, timestamp, sender_address`). -/
structure PendingMintRow where
  txid : String
  amount : Nat
  timestamp : Nat
  sender_address : Option String
deriving Repr, DecidableEq

/-- Projection of a table row to the SELECTed columns. -/
def pendingRow (r : TxRecord) : PendingMintRow :=
  { txid := r.txid
    amount := r.amount
    timestamp := r.timestamp
    sender_address := r.sender_address }

namespace Server

/-- `GET /api/pending-mints` of `server.js` (lines 221-229):
`WHERE minting_status = 'pending' AND sender_address IS NOT NULL`. -/
def pendingMints (db : Ledger) : List PendingMintRow :=
  (db.filter (fun r => r.minting_status == "pending" && r.sender_address.isSome)).map
    pendingRow

end Server

namespace Server4

/-- `GET /api/pending-mints` of `server4.js` (lines 254-261):
`WHERE minting_status = 'pending'` only — no sender filter. -/
def pendingMints (db : Ledger) : List PendingMintRow :=
  (db.filter (fun r => r.minting_status == "pending")).map pendingRow

end Server4

/-! ## Worker (`mint.js` and the unnamed worker draft) -/

/-- JS `String.prototype.includes`: `pat` occurs as a contiguous substring. -/
def listHasInfix (pat l : List Char) : Bool :=
  (List.range (l.length + 1)).any (fun i => pat.isPrefixOf (l.drop i))

/-- `s.includes(pat)` for JS strings. -/
def strIncludes (s pat : String) : Bool :=
  listHasInfix pat.toList s.toList

/-- The `{` character (used by the JSON lexer). -/
def openBrace : Char := Char.ofNat 123

/-- The `}` character. -/
def closeBrace : Char := Char.ofNat 125

/-- A JSON value as produced by `JSON.parse`.  Number tokens are kept
verbatim (no arithmetic is ever performed on them by the worker). -/
inductive JValue where
  | jnull
  | jbool (b : Bool)
  | jnum (raw : String)
  | jstr (s : String)
  | jarr (elems : List JValue)
  | jobj (fields : List (String × JValue))
deriving Repr

/-- JSON insignificant whitespace. -/
def isJsonWs (c : Char) : Bool :=
  c == ' ' || c == '\t' || c == '\n' || c == '\r'

/-- Drop leading JSON whitespace. -/
def skipWs (cs : List Char) : List Char :=
  cs.dropWhile isJsonWs

/-- Value of one hex digit, for `\uXXXX` escapes. -/
def hexDigitVal (c : Char) : Option Nat :=
  if c.isDigit then some (c.toNat - 48)
  else if 'a' ≤ c ∧ c ≤ 'f' then some (c.toNat - 87)
  else if 'A' ≤ c ∧ c ≤ 'F' then some (c.toNat - 55)
  else none

/-- Parse the remainder of a JSON string literal (the opening quote already
consumed); returns the decoded characters and the input after the closing
quote.  Raw control characters are rejected, standard escapes decoded. -/
def parseStringChars : Nat → List Char → Option (List Char × List Char)
  | 0, _ => none
  | fuel + 1, cs =>
    match cs with
    | [] => none
    | '"' :: rest => some ([], rest)
    | '\\' :: e :: rest =>
      let simple : Option (Char × List Char) :=
        if e == '"' then some ('"', rest)
        else if e == '\\' then some ('\\', rest)
        else if e == '/' then some ('/', rest)
        else if e == 'b' then some (Char.ofNat 8, rest)
        else if e == 'f' then some (Char.ofNat 12, rest)
        else if e == 'n' then some ('\n', rest)
        else if e == 'r' then some ('\r', rest)
        else if e == 't' then some ('\t', rest)
        else if e == 'u' then
          match rest with
          | a :: b :: c :: d :: rest2 =>
            match hexDigitVal a, hexDigitVal b, hexDigitVal c, hexDigitVal d with
            | some x, some y, some z, some w =>
              some (Char.ofNat (((x * 16 + y) * 16 + z) * 16 + w), rest2)
            | _, _, _, _ => none
          | _ => none
        else none
      match simple with
      | none => none
      | some (c, rest2) =>
        match parseStringChars fuel rest2 with
        | none => none
        | some (s, r) => some (c :: s, r)
    | c :: rest =>
      if c.toNat < 32 then none
      else
        match parseStringChars fuel rest with
        | none => none
        | some (s, r) => some (c :: s, r)

/-- Fraction part of a JSON number (`.digits` or nothing). -/
def parseFracPart (cs : List Char) : Option (List Char × List Char) :=
  match cs with
  | '.' :: r =>
    let ds := r.takeWhile Char.isDigit
    if ds.isEmpty then none else some ('.' :: ds, r.dropWhile Char.isDigit)
  | _ => some ([], cs)

/-- Exponent part of a JSON number (`[eE][+-]?digits` or nothing). -/
def parseExpPart (cs : List Char) : Option (List Char × List Char) :=
  match cs with
  | [] => some ([], [])
  | c :: r =>
    if c == 'e' || c == 'E' then
      let (sgn, r2) : List Char × List Char :=
        match r with
        | s :: r3 => if s == '+' || s == '-' then ([s], r3) else ([], r)
        | [] => ([], r)
      let ds := r2.takeWhile Char.isDigit
      if ds.isEmpty then none
      else some (c :: (sgn ++ ds), r2.dropWhile Char.isDigit)
    else some ([], cs)

/-- Lex one JSON number token (`-?(0|[1-9][0-9]*)(\.[0-9]+)?([eE][+-]?[0-9]+)?`). -/
def parseNumberToken (cs : List Char) : Option (List Char × List Char) :=
  let (sign, cs1) : List Char × List Char :=
    match cs with
    | '-' :: r => (['-'], r)
    | _ => ([], cs)
  let intPart := cs1.takeWhile Char.isDigit
  let cs2 := cs1.dropWhile Char.isDigit
  if intPart.isEmpty then none
  else if intPart.length > 1 && intPart.headD '0' == '0' then none
  else
    match parseFracPart cs2 with
    | none => none
    | some (fracPart, cs3) =>
      match parseExpPart cs3 with
      | none => none
      | some (expPart, cs4) =>
        some (sign ++ intPart ++ fracPart ++ expPart, cs4)

mutual

/-- Recursive-descent JSON value parser, fuelled (the fuel bounds nesting
plus aggregate member count; one unit is consumed per level). -/
def parseValueAux : Nat → List Char → Option (JValue × List Char)
  | 0, _ => none
  | fuel + 1, cs0 =>
    let cs := skipWs cs0
    match cs with
    | [] => none
    | c :: rest =>
      if c == '"' then
        match parseStringChars (rest.length + 1) rest with
        | none => none
        | some (s, r) => some (.jstr (String.mk s), r)
      else if c == openBrace then
        let r1 := skipWs rest
        match r1 with
        | d :: r2 =>
          if d == closeBrace then some (.jobj [], r2)
          else
            match parseMembersAux fuel r1 with
            | none => none
            | some (fields, r3) => some (.jobj fields, r3)
        | [] => none
      else if c == '[' then
        let r1 := skipWs rest
        match r1 with
        | ']' :: r2 => some (.jarr [], r2)
        | _ =>
          match parseElemsAux fuel r1 with
          | none => none
          | some (elems, r3) => some (.jarr elems, r3)
      else if ("null".toList).isPrefixOf cs then some (.jnull, cs.drop 4)
      else if ("true".toList).isPrefixOf cs then some (.jbool true, cs.drop 4)
      else if ("false".toList).isPrefixOf cs then some (.jbool false, cs.drop 5)
      else
        match parseNumberToken cs with
        | none => none
        | some (tok, r) => some (.jnum (String.mk tok), r)

/-- Parse `string : value (, string : value)*` followed by `}`. -/
def parseMembersAux : Nat → List Char → Option (List (String × JValue) × List Char)
  | 0, _ => none
  | fuel + 1, cs =>
    match skipWs cs with
    | '"' :: rest =>
      match parseStringChars (rest.length + 1) rest with
      | none => none
      | some (key, r1) =>
        match skipWs r1 with
        | ':' :: r2 =>
          match parseValueAux fuel r2 with
          | none => none
          | some (v, r3) =>
            match skipWs r3 with
            | ',' :: r4 =>
              match parseMembersAux fuel r4 with
              | none => none
              | some (fields, r5) => some ((String.mk key, v) :: fields, r5)
            | d :: r4 =>
              if d == closeBrace then some ([(String.mk key, v)], r4) else none
            | [] => none
        | _ => none
    | _ => none

/-- Parse `value (, value)*` followed by `]`. -/
def parseElemsAux : Nat → List Char → Option (List JValue × List Char)
  | 0, _ => none
  | fuel + 1, cs =>
    match parseValueAux fuel cs with
    | none => none
    | some (v, r1) =>
      match skipWs r1 with
      | ',' :: r2 =>
        match parseElemsAux fuel r2 with
        | none => none
        | some (elems, r3) => some (v :: elems, r3)
      | ']' :: r2 => some ([v], r2)
      | _ => none

end

/-- `JSON.parse`: parse a complete JSON text (leading/trailing whitespace
allowed); `none` models the thrown `SyntaxError`. -/
def jsonParse (s : String) : Option JValue :=
  match parseValueAux (s.toList.length + 1) s.toList with
  | none => none
  | some (v, rest) => if (skipWs rest).isEmpty then some v else none

/-- Value of a digit run (most significant first). -/
def digitsToNat (ds : List Char) : Nat :=
  ds.foldl (fun acc c => acc * 10 + (c.toNat - 48)) 0

/-- Decimal decomposition of a JSON number token: mantissa digits value `m`,
the number of mantissa digits `d`, and the power `p` with
magnitude = m × 10^p (the sign is irrelevant to zero-ness). -/
def numTokenParts (raw : String) : Nat × Nat × Int :=
  let cs := raw.toList
  let cs1 :=
    match cs with
    | '-' :: r => r
    | _ => cs
  let intPart := cs1.takeWhile Char.isDigit
  let rest := cs1.dropWhile Char.isDigit
  let fracPart : List Char :=
    match rest with
    | '.' :: r => r.takeWhile Char.isDigit
    | _ => []
  let rest2 : List Char :=
    match rest with
    | '.' :: r => r.dropWhile Char.isDigit
    | _ => rest
  let expVal : Int :=
    match rest2 with
    | _ :: r =>
      match r with
      | '-' :: r2 => -(Int.ofNat (digitsToNat (r2.takeWhile Char.isDigit)))
      | '+' :: r2 => Int.ofNat (digitsToNat (r2.takeWhile Char.isDigit))
      | _ => Int.ofNat (digitsToNat (r.takeWhile Char.isDigit))
    | [] => 0
  let digits := intPart ++ fracPart
  (digitsToNat digits, digits.length, expVal - Int.ofNat fracPart.length)

/-- Whether a number token denotes the IEEE-754 double zero that
`JSON.parse` would produce (JS numbers are doubles).  A positive magnitude
m × 10^p rounds to zero exactly when it is at most `2^(-1075)`, the halfway
point to the smallest subnormal (the tie rounds to even, i.e. to zero):
m × 10^(-q) ≤ 2^(-1075)  ⟺  m·2^1075 ≤ 10^q.  Since m < 10^d and
2^1075 < 10^324, any q ≥ d + 325 is certainly zero, which keeps 10^q small
enough to compute in the remaining cases. -/
def numTokenIsZero (raw : String) : Bool :=
  match numTokenParts raw with
  | (m, d, p) =>
    if m == 0 then true
    else if (0 : Int) ≤ p then false
    else
      let q := (-p).toNat
      if d + 325 ≤ q then true
      else decide (m * 2 ^ 1075 ≤ 10 ^ q)

/-- JS truthiness of a parsed JSON value. -/
def jsTruthy : JValue → Bool
  | .jnull => false
  | .jbool b => b
  | .jnum raw => !numTokenIsZero raw
  | .jstr s => !(s == "")
  | .jarr _ => true
  | .jobj _ => true

/-- JS property access `v.key` (`none` models `undefined`; for objects,
`JSON.parse` keeps the last of duplicate keys). -/
def jsMember (v : JValue) (key : String) : Option JValue :=
  match v with
  | .jobj fields => fields.reverse.lookup key
  | _ => none

/-- JS index access `v[0]`: element 0 of an array, first character of a
string, and on an object the index coerces to a lookup of the property
named `"0"` (last duplicate key wins, as after `JSON.parse`); `undefined`
(`none`) otherwise. -/
def jsIndexZero : JValue → Option JValue
  | .jarr elems => elems.head?
  | .jstr s =>
    match s.toList with
    | [] => none
    | c :: _ => some (.jstr (String.mk [c]))
  | .jobj fields => fields.reverse.lookup "0"
  | _ => none

/-- JS truthiness of a possibly-`undefined` value. -/
def optTruthy : Option JValue → Bool
  | none => false
  | some v => jsTruthy v

namespace Minter

/-- `parseInscriptionId` of `mint.js` (lines 86-96): `JSON.parse` the output;
if `data.inscriptions` and `data.inscriptions[0]` are truthy, return
`data.inscriptions[0].id`; on parse error or otherwise return `null`.
Both `null` and `undefined` results are embedded as `none`. -/
def parseInscriptionId (output : String) : Option JValue :=
  match jsonParse output with
  | none => none
  | some data =>
    match jsMember data "inscriptions" with
    | none => none
    | some ins =>
      if jsTruthy ins then
        match jsIndexZero ins with
        | none => none
        | some first =>
          if jsTruthy first then jsMember first "id"
          else none
      else none

end Minter

/-- The character class of the JS regex `\s` (ECMAScript WhiteSpace plus
LineTerminator): TAB, LF, VT, FF, CR, SP, NBSP (U+00A0), U+1680,
U+2000..U+200A, LS (U+2028), PS (U+2029), U+202F, U+205F, U+3000 and
ZWNBSP (U+FEFF).  `\S` is its complement. -/
def jsWhitespaceChar (c : Char) : Bool :=
  let n := c.toNat
  n == 9 || n == 10 || n == 11 || n == 12 || n == 13 || n == 32 ||
    n == 160 || n == 5760 || decide (8192 ≤ n ∧ n ≤ 8202) || n == 8232 ||
    n == 8233 || n == 8239 || n == 8287 || n == 12288 || n == 65279

namespace Part000

/-- The literal part of the regex `/inscription_id: (\S+)/`. -/
def tagChars : List Char := "inscription_id: ".toList

/-- Leftmost regex match: scan for the literal tag followed by at least one
`\S` character; capture the maximal `\S` run. -/
def findTagMatch : List Char → Option (List Char)
  | [] => none
  | c :: rest =>
    if tagChars.isPrefixOf (c :: rest) then
      let cap := ((c :: rest).drop tagChars.length).takeWhile (fun ch => !jsWhitespaceChar ch)
      if cap.isEmpty then findTagMatch rest else some cap
    else findTagMatch rest

/-- `parseInscriptionId` of the unnamed worker draft (lines 95-99):
`output.match(/inscription_id: (\S+)/)`, returning the captured group or
`null`. -/
def parseInscriptionId (output : String) : Option String :=
  (findTagMatch output.toList).map String.mk

end Part000

namespace Minter

/-- `config.maxRetries` in `mint.js`. -/
def maxRetries : Nat := 3

/-- Result of one subprocess execution: either `execAsync` rejected
(non-zero exit or spawn failure), or it resolved with captured streams. -/
inductive ExecOutcome where
  | threw
  | output (stdout stderr : String)
deriving Repr, DecidableEq

/-- The value `executeMintCommand` resolves to. -/
structure MintResult where
  success : Bool
  inscriptionId : Option JValue
deriving Repr

/-- The stderr test in `executeMintCommand` (lines 135-137):
`stderr.includes('insufficient funds') || stderr.includes('error') || stderr.includes('failed')`. -/
def stderrSignalsFailure (stderr : String) : Bool :=
  strIncludes stderr "insufficient funds" || strIncludes stderr "error" ||
    strIncludes stderr "failed"

/-- `executeMintCommand` of `mint.js` (lines 98-147).  A falsy sender
(`!senderAddress`: absent or the empty string) throws before `execAsync`
(caught: failure).  If stdout is truthy and parses to a truthy inscription
id, the function returns `success: true` **at once** — the stderr check
below it is never reached.  Otherwise, whether the stderr branch throws
(signal substring found) or control falls through, the result is
`success: false`. -/
def executeMintCommand (senderAddress : Option String) (outcome : ExecOutcome) :
    MintResult :=
  match senderAddress with
  | none => { success := false, inscriptionId := none }
  | some s =>
    if s == "" then { success := false, inscriptionId := none }
    else
    match outcome with
    | .threw => { success := false, inscriptionId := none }
    | .output stdout stderr =>
      let parsed : Option JValue :=
        if stdout == "" then none else parseInscriptionId stdout
      match parsed with
      | some id =>
        if jsTruthy id then { success := true, inscriptionId := some id }
        else
          { success := false, inscriptionId := none }
      | none =>
        let _ := stderrSignalsFailure stderr
        { success := false, inscriptionId := none }

/-- The Worker's module-level mutable state: the `mintingAttempts` map and
the `activeOperations` set. -/
structure WorkerState where
  mintingAttempts : List (String × Nat)
  activeOperations : List String
deriving Repr, DecidableEq

/-- `Map.get` (first binding wins; `attemptsSet` keeps keys unique). -/
def attemptsGet (m : List (String × Nat)) (k : String) : Option Nat :=
  m.lookup k

/-- `Map.set`. -/
def attemptsSet (m : List (String × Nat)) (k : String) (v : Nat) :
    List (String × Nat) :=
  if m.any (fun p => p.1 == k) then m.map (fun p => if p.1 == k then (k, v) else p)
  else m ++ [(k, v)]

/-- `Map.delete`. -/
def attemptsDelete (m : List (String × Nat)) (k : String) : List (String × Nat) :=
  m.filter (fun p => !(p.1 == k))

/-- `processPendingMint` of `mint.js` (lines 163-208), with the subprocess
outcome and the success of the confirm POST supplied by the environment.
A falsy sender (`!tx.sender_address`: absent or the empty string) takes the
poison path setting the attempt counter to `maxRetries`.
`activeOperations` is added to on entry and deleted from in the `finally`,
so the returned state reflects the net effect of one complete call. -/
def processPendingMint (outcome : ExecOutcome) (confirmOk : Bool)
    (s : WorkerState) (tx : PendingMintRow) : WorkerState :=
  let attempts := (attemptsGet s.mintingAttempts tx.txid).getD 0
  if attempts ≥ maxRetries then s
  else if s.activeOperations.contains tx.txid then s
  else
    match tx.sender_address with
    | none =>
      { s with mintingAttempts := attemptsSet s.mintingAttempts tx.txid maxRetries }
    | some a =>
      if a == "" then
        { s with mintingAttempts := attemptsSet s.mintingAttempts tx.txid maxRetries }
      else
      let mintResult := executeMintCommand tx.sender_address outcome
      if mintResult.success && optTruthy mintResult.inscriptionId then
        if confirmOk then
          { s with mintingAttempts := attemptsDelete s.mintingAttempts tx.txid }
        else
          { s with mintingAttempts := attemptsSet s.mintingAttempts tx.txid (attempts + 1) }
      else
        { s with mintingAttempts := attemptsSet s.mintingAttempts tx.txid (attempts + 1) }

end Minter

/-! ## Specification-side definitions and sample inputs -/

/-- The spec's amount formula, written as the spec words it (for comparison
with `receivedAmountOf`): `amount_sats = Σ vout[i].value` over the outputs
whose `scriptpubkey_address` equals the watched address. -/
def specAmountSats (vout : List TxOutput) : Nat :=
  ((vout.filter (fun o => o.scriptpubkey_address == some bitcoinAddress)).map
    TxOutput.value).sum

/-- Sample upstream transaction paying 2000 sats to the watched address,
with an empty `vin` (no determinable sender). -/
def txNoSender2000 : UpstreamTx :=
  { txid := "tx-nosender"
    vout := [{ scriptpubkey_address := some bitcoinAddress, value := 2000 }]
    block_height := none
    vin := [] }

/-- The row `server4.js` persists for `txNoSender2000` at time 0 when the
detail fetch yields nothing. -/
def recNoSender2000 : TxRecord :=
  { txid := "tx-nosender"
    timestamp := 0
    amount := 2000
    block_height := none
    requires_minting := true
    minting_status := "pending"
    sender_address := none
    confirmations := 0
    inscription_id := none
    inscription_timestamp := none }

/-- Sample upstream transaction with two outputs of 1000 sats each to the
watched address plus one foreign output, sender `S`. -/
def txTwoOutputs : UpstreamTx :=
  { txid := "tx-two"
    vout := [{ scriptpubkey_address := some bitcoinAddress, value := 1000 },
             { scriptpubkey_address := some "someone-else", value := 500 },
             { scriptpubkey_address := some bitcoinAddress, value := 1000 }]
    block_height := none
    vin := [{ prevout := some { scriptpubkey_address := some "S" } }] }

/-- A persisted row with status `not_required` (below threshold). -/
def recNotRequired : TxRecord :=
  { txid := "tx-small"
    timestamp := 0
    amount := 100
    block_height := none
    requires_minting := false
    minting_status := "not_required"
    sender_address := some "S"
    confirmations := 0
    inscription_id := none
    inscription_timestamp := none }

/-- A persisted row with status `pending`. -/
def recPending : TxRecord :=
  { txid := "tx-big"
    timestamp := 0
    amount := 2000
    block_height := none
    requires_minting := true
    minting_status := "pending"
    sender_address := some "S"
    confirmations := 0
    inscription_id := none
    inscription_timestamp := none }

/-- Subprocess stdout in the JSON format the spec calls format (a). -/
def stdoutJson : String := "\x7b\"inscriptions\":[\x7b\"id\":\"abc123i0\"\x7d]\x7d"

/-- Subprocess stdout in the line format the spec calls format (b). -/
def stdoutLine : String := "inscription_id: abc123"

/-! ## Reachable ledger states -/

/-- Ledger states reachable from the empty table through the modelled
mutating operations: ingestion by either server draft, and the
confirm-mint endpoint. -/
inductive Reach : Ledger → Prop where
  | init : Reach []
  | ingest4 (fetchDetails : String → Option Server4.TxDetails) (now : Nat)
      (db : Ledger) (tx : UpstreamTx) (h : Reach db) :
      Reach (Server4.processTransaction fetchDetails now db tx).1
  | ingestJs (now : Nat) (db : Ledger) (tx : UpstreamTx) (h : Reach db) :
      Reach (Server.processTransaction now db tx).1
  | confirm (now : Nat) (db : Ledger) (txid inscription_id : Option String)
      (h : Reach db) :
      Reach (confirmMint now db txid inscription_id).1

/-- Row invariant maintained by every modelled operation: a completed row
carries its completion timestamp, and a not-yet-completed row carries no
inscription id. -/
def RowInv (r : TxRecord) : Prop :=
  (r.minting_status = "completed" → r.inscription_timestamp.isSome = true) ∧
  (r.minting_status ≠ "completed" → r.inscription_id = none)

/-- The row invariant, over a whole table. -/
def LedgerInv (db : Ledger) : Prop := ∀ r ∈ db, RowInv r

/-! ## Helper lemmas -/

theorem ledgerInv_reach {db : Ledger} (h : Reach db) : LedgerInv db := by
  induction h with
  | init => intro r hr; cases hr
  | ingest4 fd now db tx h ih =>
    intro r hr
    rw [Server4.processTransaction.eq_def] at hr
    cases hfind : dbGet db tx.txid with
    | some q => rw [hfind] at hr; exact ih r hr
    | none =>
      rw [hfind] at hr
      simp only [List.mem_append, List.mem_singleton] at hr
      rcases hr with hr | hr
      · exact ih r hr
      · subst hr
        refine ⟨fun hc => ?_, fun _ => rfl⟩
        by_cases hamt : minimumSatsForBitbar ≤ receivedAmountOf tx.vout <;>
          simp [hamt] at hc
  | ingestJs now db tx h ih =>
    intro r hr
    rw [Server.processTransaction.eq_def] at hr
    cases hfind : dbGet db tx.txid with
    | some q => rw [hfind] at hr; exact ih r hr
    | none =>
      rw [hfind] at hr
      by_cases hz : (receivedAmountOf tx.vout == 0) = true
      · rw [if_pos hz] at hr; exact ih r hr
      · rw [if_neg hz] at hr
        simp only [List.mem_append, List.mem_singleton] at hr
        rcases hr with hr | hr
        · exact ih r hr
        · subst hr
          refine ⟨fun hc => ?_, fun _ => rfl⟩
          by_cases hamt : minimumSatsForBitbar ≤ receivedAmountOf tx.vout <;>
            simp [hamt] at hc
  | confirm now db txid iid h ih =>
    intro r hr
    cases txid with
    | none => exact ih r hr
    | some tid =>
      simp only [confirmMint] at hr
      by_cases he : (tid == "") = true
      · rw [if_pos he] at hr; exact ih r hr
      · rw [if_neg he] at hr
        cases hfind : dbGet db tid with
        | none => simp only [hfind] at hr; exact ih r hr
        | some transaction =>
          simp only [hfind] at hr
          by_cases hst : (transaction.minting_status == "completed") = true
          · rw [if_pos hst] at hr; exact ih r hr
          · rw [if_neg hst] at hr
            simp only [List.mem_map] at hr
            obtain ⟨x, hx, hfx⟩ := hr
            by_cases hxt : (x.txid == tid) = true
            · rw [if_pos hxt] at hfx
              subst hfx
              exact ⟨fun _ => rfl, fun hne => absurd rfl hne⟩
            · rw [if_neg hxt] at hfx
              subst hfx
              exact ih x hx

theorem confirmMint_already_completed (now : Nat) (db : Ledger) (tid : String)
    (iid : Option String) (r : TxRecord) (hne : (tid == "") = false)
    (hfind : dbGet db tid = some r) (hst : (r.minting_status == "completed") = true) :
    confirmMint now db (some tid) iid = (db, .badRequest "Transaction already minted") := by
  simp only [confirmMint, hne, Bool.false_eq_true, if_false, hfind, hst, if_true]

theorem confirmMint_found_not_completed (now : Nat) (db : Ledger) (tid : String)
    (iid : Option String) (r : TxRecord) (hne : (tid == "") = false)
    (hfind : dbGet db tid = some r) (hst : (r.minting_status == "completed") = false) :
    confirmMint now db (some tid) iid =
      (db.map (fun x =>
        if x.txid == tid then
          { x with
            minting_status := "completed"
            inscription_id := iid
            inscription_timestamp := some now }
        else x),
       .ok r) := by
  simp only [confirmMint, hne, Bool.false_eq_true, if_false, hfind, hst]

theorem dbGet_map_update (db : Ledger) (tid : String) (r : TxRecord)
    (hfind : dbGet db tid = some r) (f : TxRecord → TxRecord)
    (hf : ∀ x, (f x).txid = x.txid) :
    dbGet (db.map f) tid = some (f r) := by
  unfold dbGet at *
  rw [List.find?_map]
  have hcomp : ((fun x : TxRecord => x.txid == tid) ∘ f) =
      (fun x : TxRecord => x.txid == tid) := by
    funext x
    simp [Function.comp, hf]
  rw [hcomp, hfind]
  rfl

theorem confirm_dbGet_updated (now : Nat) (db : Ledger) (tid : String)
    (iid : Option String) (r : TxRecord) (hfind : dbGet db tid = some r) :
    dbGet (db.map (fun x =>
      if x.txid == tid then
        { x with
          minting_status := "completed"
          inscription_id := iid
          inscription_timestamp := some now }
      else x)) tid =
      some { r with
              minting_status := "completed"
              inscription_id := iid
              inscription_timestamp := some now } := by
  have hfind2 : db.find? (fun x => x.txid == tid) = some r := hfind
  have hrt := List.find?_some hfind2
  have h2 := dbGet_map_update db tid r hfind
    (fun x =>
      if x.txid == tid then
        { x with
          minting_status := "completed"
          inscription_id := iid
          inscription_timestamp := some now }
      else x)
    (fun x => by by_cases hx : (x.txid == tid) = true <;> simp [hx])
  simp only [hrt, if_true] at h2
  exact h2

theorem pt4_skip (fd : String → Option Server4.TxDetails) (now : Nat) (db : Ledger)
    (tx : UpstreamTx) (q : TxRecord) (h : dbGet db tx.txid = some q) :
    Server4.processTransaction fd now db tx = (db, none) := by
  rw [Server4.processTransaction.eq_def, h]

theorem ptJs_skip (now : Nat) (db : Ledger) (tx : UpstreamTx) (q : TxRecord)
    (h : dbGet db tx.txid = some q) :
    Server.processTransaction now db tx = (db, none) := by
  rw [Server.processTransaction.eq_def, h]

theorem ptJs_skip_zero (now : Nat) (db : Ledger) (tx : UpstreamTx)
    (h : dbGet db tx.txid = none) (hz : (receivedAmountOf tx.vout == 0) = true) :
    Server.processTransaction now db tx = (db, none) := by
  rw [Server.processTransaction.eq_def, h]
  simp [hz]

theorem pt4_extends (fd : String → Option Server4.TxDetails) (now : Nat) (db : Ledger)
    (tx : UpstreamTx) : ∃ l, (Server4.processTransaction fd now db tx).1 = db ++ l := by
  rw [Server4.processTransaction.eq_def]
  cases h : dbGet db tx.txid with
  | some q => exact ⟨[], by simp⟩
  | none => exact ⟨_, rfl⟩

theorem ptJs_extends (now : Nat) (db : Ledger) (tx : UpstreamTx) :
    ∃ l, (Server.processTransaction now db tx).1 = db ++ l := by
  rw [Server.processTransaction.eq_def]
  cases h : dbGet db tx.txid with
  | some q => exact ⟨[], by simp⟩
  | none =>
    by_cases hz : (receivedAmountOf tx.vout == 0) = true
    · exact ⟨[], by simp [hz]⟩
    · simp only [hz, Bool.false_eq_true, if_false]
      exact ⟨_, rfl⟩

theorem dbGet_isSome_append (db l : Ledger) (x : String)
    (hx : (dbGet db x).isSome = true) : (dbGet (db ++ l) x).isSome = true := by
  unfold dbGet at *
  rw [List.find?_append]
  cases hfx : db.find? (fun r => r.txid == x) with
  | some q => simp
  | none => rw [hfx] at hx; simp at hx

theorem pt4_mem_self (fd : String → Option Server4.TxDetails) (now : Nat) (db : Ledger)
    (tx : UpstreamTx) :
    (dbGet (Server4.processTransaction fd now db tx).1 tx.txid).isSome = true := by
  rw [Server4.processTransaction.eq_def]
  cases h : dbGet db tx.txid with
  | some q => simp [h]
  | none =>
    have h' : db.find? (fun r => r.txid == tx.txid) = none := h
    show (dbGet (db ++ _) tx.txid).isSome = true
    unfold dbGet
    rw [List.find?_append, h']
    simp

theorem ptJs_after (now : Nat) (db : Ledger) (tx : UpstreamTx) :
    (dbGet (Server.processTransaction now db tx).1 tx.txid).isSome = true ∨
      (receivedAmountOf tx.vout == 0) = true := by
  cases h : dbGet db tx.txid with
  | some q => left; rw [Server.processTransaction.eq_def, h]; simp [h]
  | none =>
    by_cases hz : (receivedAmountOf tx.vout == 0) = true
    · right; exact hz
    · left
      rw [Server.processTransaction.eq_def, h]
      simp only [hz, Bool.false_eq_true, if_false]
      have h' : db.find? (fun r => r.txid == tx.txid) = none := h
      unfold dbGet
      rw [List.find?_append, h']
      simp

theorem pt4_mono (fd : String → Option Server4.TxDetails) (now : Nat) (db : Ledger)
    (tx : UpstreamTx) (x : String) (hx : (dbGet db x).isSome = true) :
    (dbGet (Server4.processTransaction fd now db tx).1 x).isSome = true := by
  obtain ⟨l, hl⟩ := pt4_extends fd now db tx
  rw [hl]
  exact dbGet_isSome_append db l x hx

theorem ptJs_mono (now : Nat) (db : Ledger) (tx : UpstreamTx) (x : String)
    (hx : (dbGet db x).isSome = true) :
    (dbGet (Server.processTransaction now db tx).1 x).isSome = true := by
  obtain ⟨l, hl⟩ := ptJs_extends now db tx
  rw [hl]
  exact dbGet_isSome_append db l x hx

theorem monitorTick4_mono (fd : String → Option Server4.TxDetails) (now : Nat)
    (db : Ledger) (txs : List UpstreamTx) (x : String)
    (hx : (dbGet db x).isSome = true) :
    (dbGet (Server4.monitorTick fd now db txs) x).isSome = true := by
  induction txs generalizing db with
  | nil => exact hx
  | cons a l ih =>
    simp only [Server4.monitorTick, List.foldl_cons]
    exact ih _ (pt4_mono fd now db a x hx)

theorem monitorTickJs_mono (now : Nat) (db : Ledger) (txs : List UpstreamTx) (x : String)
    (hx : (dbGet db x).isSome = true) :
    (dbGet (Server.monitorTick now db txs) x).isSome = true := by
  induction txs generalizing db with
  | nil => exact hx
  | cons a l ih =>
    simp only [Server.monitorTick, List.foldl_cons]
    exact ih _ (ptJs_mono now db a x hx)

theorem monitorTick4_hasAll (fd : String → Option Server4.TxDetails) (now : Nat)
    (db : Ledger) (txs : List UpstreamTx) :
    ∀ t ∈ txs, (dbGet (Server4.monitorTick fd now db txs) t.txid).isSome = true := by
  induction txs generalizing db with
  | nil => intro t ht; cases ht
  | cons a l ih =>
    intro t ht
    simp only [Server4.monitorTick, List.foldl_cons]
    rcases List.mem_cons.mp ht with rfl | ht'
    · exact monitorTick4_mono fd now _ l t.txid (pt4_mem_self fd now db t)
    · exact ih _ t ht'

theorem monitorTickJs_hasAll (now : Nat) (db : Ledger) (txs : List UpstreamTx) :
    ∀ t ∈ txs, (dbGet (Server.monitorTick now db txs) t.txid).isSome = true ∨
      (receivedAmountOf t.vout == 0) = true := by
  induction txs generalizing db with
  | nil => intro t ht; cases ht
  | cons a l ih =>
    intro t ht
    simp only [Server.monitorTick, List.foldl_cons]
    rcases List.mem_cons.mp ht with rfl | ht'
    · rcases ptJs_after now db t with hs | hz
      · exact Or.inl (monitorTickJs_mono now _ l t.txid hs)
      · exact Or.inr hz
    · exact ih _ t ht'

theorem monitorTick4_id (fd : String → Option Server4.TxDetails) (now : Nat)
    (db : Ledger) (txs : List UpstreamTx)
    (hall : ∀ t ∈ txs, (dbGet db t.txid).isSome = true) :
    Server4.monitorTick fd now db txs = db := by
  induction txs with
  | nil => rfl
  | cons a l ih =>
    simp only [Server4.monitorTick, List.foldl_cons]
    obtain ⟨q, hq⟩ := Option.isSome_iff_exists.mp (hall a (List.mem_cons_self a l))
    rw [pt4_skip fd now db a q hq]
    exact ih (fun t ht => hall t (List.mem_cons_of_mem a ht))

theorem monitorTickJs_id (now : Nat) (db : Ledger) (txs : List UpstreamTx)
    (hall : ∀ t ∈ txs, (dbGet db t.txid).isSome = true ∨
      (receivedAmountOf t.vout == 0) = true) :
    Server.monitorTick now db txs = db := by
  induction txs with
  | nil => rfl
  | cons a l ih =>
    simp only [Server.monitorTick, List.foldl_cons]
    have hstep : Server.processTransaction now db a = (db, none) := by
      rcases hall a (List.mem_cons_self a l) with hs | hz
      · obtain ⟨q, hq⟩ := Option.isSome_iff_exists.mp hs
        exact ptJs_skip now db a q hq
      · cases hq : dbGet db a.txid with
        | some q => exact ptJs_skip now db a q hq
        | none => exact ptJs_skip_zero now db a hq hz
    rw [hstep]
    exact ih (fun t ht => hall t (List.mem_cons_of_mem a ht))

/-! ## Claim theorems -/

/-- C1 counterexample: `server4.js` ingests a 2000-sat transaction whose
sender could not be determined (detail fetch yields nothing) and persists it
with `minting_status = "pending"` and a NULL `sender_address` — not as
`not_required` as the claim asserts. -/
theorem statusPendingWithoutSender_cex :
    (Server4.processTransaction (fun _ => none) 0 [] txNoSender2000).2 =
      some recNoSender2000 ∧
    recNoSender2000.minting_status = "pending" ∧
    recNoSender2000.sender_address = none ∧
    minimumSatsForBitbar ≤ recNoSender2000.amount := by
  exact ⟨by decide, rfl, rfl, by decide⟩

/-- C1 (amended): both server drafts classify a newly persisted record by
amount alone: `minting_status = "pending"` iff `amount_sats ≥ 1641`, and
`"not_required"` iff `amount_sats < 1641`; presence of `sender_address`
plays no role in the stored status. -/
theorem mintingStatusByAmountOnly :
    (∀ (fd : String → Option Server4.TxDetails) (now : Nat) (db : Ledger)
        (t : UpstreamTx) (r : TxRecord),
      (Server4.processTransaction fd now db t).2 = some r →
        (r.minting_status = "pending" ↔ minimumSatsForBitbar ≤ r.amount) ∧
        (r.minting_status = "not_required" ↔ r.amount < minimumSatsForBitbar)) ∧
    (∀ (now : Nat) (db : Ledger) (t : UpstreamTx) (r : TxRecord),
      (Server.processTransaction now db t).2 = some r →
        (r.minting_status = "pending" ↔ minimumSatsForBitbar ≤ r.amount) ∧
        (r.minting_status = "not_required" ↔ r.amount < minimumSatsForBitbar)) := by
  constructor
  · intro fd now db t r h
    rw [Server4.processTransaction.eq_def] at h
    cases hfind : dbGet db t.txid with
    | some q => rw [hfind] at h; cases h
    | none =>
      rw [hfind] at h
      simp only [Option.some.injEq] at h
      subst h
      by_cases hamt : minimumSatsForBitbar ≤ receivedAmountOf t.vout
      · rw [if_pos hamt]
        refine ⟨⟨fun _ => hamt, fun _ => rfl⟩, ⟨fun hco => ?_, fun hlt => ?_⟩⟩
        · simp at hco
        · exact absurd hamt (Nat.not_le_of_lt hlt)
      · rw [if_neg hamt]
        refine ⟨⟨fun hco => ?_, fun hle => ?_⟩, ⟨fun _ => Nat.lt_of_not_le hamt, fun _ => rfl⟩⟩
        · simp at hco
        · exact absurd hle hamt
  · intro now db t r h
    rw [Server.processTransaction.eq_def] at h
    cases hfind : dbGet db t.txid with
    | some q => rw [hfind] at h; cases h
    | none =>
      rw [hfind] at h
      by_cases hz : (receivedAmountOf t.vout == 0) = true
      · rw [if_pos hz] at h; cases h
      · rw [if_neg hz] at h
        simp only [Option.some.injEq] at h
        subst h
        by_cases hamt : minimumSatsForBitbar ≤ receivedAmountOf t.vout
        · rw [if_pos hamt]
          refine ⟨⟨fun _ => hamt, fun _ => rfl⟩, ⟨fun hco => ?_, fun hlt => ?_⟩⟩
          · simp at hco
          · exact absurd hamt (Nat.not_le_of_lt hlt)
        · rw [if_neg hamt]
          refine ⟨⟨fun hco => ?_, fun hle => ?_⟩, ⟨fun _ => Nat.lt_of_not_le hamt, fun _ => rfl⟩⟩
          · simp at hco
          · exact absurd hle hamt

/-- Witness for the amended C1 theorem at a concrete ingestion. -/
theorem mintingStatusByAmountOnly_witness :
    (recNoSender2000.minting_status = "pending" ↔
      minimumSatsForBitbar ≤ recNoSender2000.amount) ∧
    (recNoSender2000.minting_status = "not_required" ↔
      recNoSender2000.amount < minimumSatsForBitbar) :=
  mintingStatusByAmountOnly.1 (fun _ => none) 0 [] txNoSender2000 recNoSender2000
    (by decide)

/-- C2 counterexample: confirm-mint on a `not_required` record does not
return an already-completed answer and does not leave the record unchanged:
it answers 200 and resurrects the record to `completed`. -/
theorem confirmNotRequiredResurrects_cex :
    (confirmMint 5 [recNotRequired] (some "tx-small") (some "insc-1")).2 =
      .ok recNotRequired ∧
    (confirmMint 5 [recNotRequired] (some "tx-small") (some "insc-1")).1 =
      [{ recNotRequired with
          minting_status := "completed"
          inscription_id := some "insc-1"
          inscription_timestamp := some 5 }] ∧
    recNotRequired.minting_status = "not_required" := by
  exact ⟨by decide, by decide, rfl⟩

/-- C2 (amended): confirm-mint rejects (400, already minted) exactly the
records already `completed`; on any other record — `pending` or
`not_required` alike — it performs the transition to `completed` with the
request's inscription id and answers 200.  So `not_required` is not
terminal: the endpoint performs `not_required → completed` as well as
`pending → completed`; only `completed` is terminal. -/
theorem confirmCompletesAnyNonCompleted :
    (∀ (now : Nat) (db : Ledger) (tid : String) (iid : Option String) (r : TxRecord),
      (tid == "") = false → dbGet db tid = some r →
      (r.minting_status == "completed") = false →
      (confirmMint now db (some tid) iid).2 = .ok r ∧
      dbGet (confirmMint now db (some tid) iid).1 tid =
        some { r with
                minting_status := "completed"
                inscription_id := iid
                inscription_timestamp := some now }) ∧
    (∀ (now : Nat) (db : Ledger) (tid : String) (iid : Option String) (r : TxRecord),
      (tid == "") = false → dbGet db tid = some r →
      (r.minting_status == "completed") = true →
      confirmMint now db (some tid) iid =
        (db, .badRequest "Transaction already minted")) := by
  constructor
  · intro now db tid iid r hne hfind hst
    rw [confirmMint_found_not_completed now db tid iid r hne hfind hst]
    exact ⟨rfl, confirm_dbGet_updated now db tid iid r hfind⟩
  · intro now db tid iid r hne hfind hst
    exact confirmMint_already_completed now db tid iid r hne hfind hst

/-- Witness for the amended C2 theorem: a concrete `not_required` record is
completed by confirm-mint. -/
theorem confirmCompletesAnyNonCompleted_witness :
    (confirmMint 5 [recNotRequired] (some "tx-small") (some "insc-2")).2 =
      .ok recNotRequired ∧
    dbGet (confirmMint 5 [recNotRequired] (some "tx-small") (some "insc-2")).1
        "tx-small" =
      some { recNotRequired with
              minting_status := "completed"
              inscription_id := some "insc-2"
              inscription_timestamp := some 5 } :=
  confirmCompletesAnyNonCompleted.1 5 [recNotRequired] "tx-small" (some "insc-2")
    recNotRequired (by decide) (by decide) (by decide)

/-- C3 counterexample: a confirm-mint request that names a pending txid but
omits `inscription_id` yields a stored record with
`minting_status = "completed"` and `inscription_id` NULL — the forbidden
transitional state, durably. -/
theorem completedWithoutInscriptionId_cex :
    dbGet (confirmMint 9 [recPending] (some "tx-big") none).1 "tx-big" =
      some { recPending with
              minting_status := "completed"
              inscription_id := none
              inscription_timestamp := some 9 } ∧
    ({ recPending with
        minting_status := "completed"
        inscription_id := none
        inscription_timestamp := some 9 } : TxRecord).inscription_id = none := by
  exact ⟨by decide, rfl⟩

/-- C3 (amended): in every reachable ledger state, every `completed` record
carries a completion timestamp; `inscription_id` however is only as present
as the confirm request that completed the record made it — a request that
omitted the field leaves it NULL. -/
theorem completedHasTimestamp (db : Ledger) (h : Reach db) :
    ∀ r ∈ db, r.minting_status = "completed" → r.inscription_timestamp.isSome = true :=
  fun r hr hc => (ledgerInv_reach h r hr).1 hc

/-- Witness for the amended C3 theorem on a concrete reachable state. -/
theorem completedHasTimestamp_witness :
    ({ txid := "tx-two", timestamp := 0, amount := 2000, block_height := none,
       requires_minting := true, minting_status := "completed",
       sender_address := some "S", confirmations := 0,
       inscription_id := some "abc123i0",
       inscription_timestamp := some 9 } : TxRecord).inscription_timestamp.isSome =
      true :=
  completedHasTimestamp
    (confirmMint 9
      (Server4.processTransaction
        (fun _ => some { vin := [{ prevout := some { scriptpubkey_address := some "S" } }] })
        0 [] txTwoOutputs).1
      (some "tx-two") (some "abc123i0")).1
    (Reach.confirm 9 _ (some "tx-two") (some "abc123i0")
      (Reach.ingest4 _ 0 [] txTwoOutputs Reach.init))
    _ (by decide) rfl

/-- C4 counterexample: `server4.js`'s `GET /api/pending-mints` includes a
pending row whose `sender_address` is NULL (a row `server4.js`'s own
ingestion produces), refuting "no record with an absent sender_address is
ever included". -/
theorem pendingMintsIncludesNoSender_cex :
    Server4.pendingMints
        (Server4.processTransaction (fun _ => none) 0 [] txNoSender2000).1 =
      [{ txid := "tx-nosender", amount := 2000, timestamp := 0,
         sender_address := none }] := by
  decide

/-- C4 (amended): the two drafts disagree.  `server.js`'s endpoint returns
exactly the rows with `minting_status = "pending"` and `sender_address`
present, projected to `{txid, amount, timestamp, sender_address}`;
`server4.js`'s endpoint returns all `pending` rows, with or without a
sender, under the same projection. -/
theorem pendingMintsCharacterization :
    (∀ (db : Ledger) (p : PendingMintRow),
      p ∈ Server.pendingMints db ↔
        ∃ r ∈ db, r.minting_status = "pending" ∧ r.sender_address.isSome = true ∧
          pendingRow r = p) ∧
    (∀ (db : Ledger) (p : PendingMintRow),
      p ∈ Server4.pendingMints db ↔
        ∃ r ∈ db, r.minting_status = "pending" ∧ pendingRow r = p) := by
  constructor
  · intro db p
    simp [Server.pendingMints, List.mem_map, List.mem_filter, Bool.and_eq_true,
      beq_iff_eq, and_assoc]
  · intro db p
    simp [Server4.pendingMints, List.mem_map, List.mem_filter, beq_iff_eq, and_assoc]

/-- Witness for the amended C4 theorem: the senderless pending row is a
member of `server4.js`'s pending list. -/
theorem pendingMintsCharacterization_witness :
    pendingRow recNoSender2000 ∈ Server4.pendingMints [recNoSender2000] :=
  (pendingMintsCharacterization.2 [recNoSender2000] (pendingRow recNoSender2000)).mpr
    ⟨recNoSender2000, by decide, rfl, rfl⟩

/-- C5 counterexample: the subprocess succeeds (stdout carries a JSON
inscription id), the confirm POST fails — and `processPendingMint` bumps
`attempts[txid]` from 0 to 1 instead of leaving it unchanged. -/
theorem attemptsBumpedOnConfirmFailure_cex :
    (Minter.processPendingMint (.output stdoutJson "") false
        { mintingAttempts := [], activeOperations := [] }
        { txid := "tx-two", amount := 2000, timestamp := 0,
          sender_address := some "S" }).mintingAttempts = [("tx-two", 1)] := by
  rfl

/-- C5 (amended): when the inscription subprocess succeeds with a (truthy)
inscription id but the confirm POST fails, `processPendingMint` falls
through to `mintingAttempts.set(txid, attempts + 1)`: the retry counter is
incremented exactly as on any other failure, not left unchanged. -/
theorem attemptsIncrementedOnConfirmFailure
    (s : Minter.WorkerState) (tx : PendingMintRow) (outcome : Minter.ExecOutcome)
    (hlt : ¬(Minter.attemptsGet s.mintingAttempts tx.txid).getD 0 ≥ Minter.maxRetries)
    (hact : tx.txid ∉ s.activeOperations)
    (a : String) (hsender : tx.sender_address = some a)
    (hsucc : (Minter.executeMintCommand tx.sender_address outcome).success = true)
    (_hid : optTruthy (Minter.executeMintCommand tx.sender_address outcome).inscriptionId
      = true) :
    Minter.processPendingMint outcome false s tx =
      { s with
        mintingAttempts :=
          Minter.attemptsSet s.mintingAttempts tx.txid
            ((Minter.attemptsGet s.mintingAttempts tx.txid).getD 0 + 1) } := by
  unfold Minter.processPendingMint
  rw [if_neg hlt, if_neg (by simpa using hact), hsender]
  dsimp only
  by_cases ha : (a == "") = true
  · exfalso
    have ha' : a = "" := by simpa using ha
    subst ha'
    rw [hsender] at hsucc
    rw [show Minter.executeMintCommand (some "") outcome =
      { success := false, inscriptionId := none } from rfl] at hsucc
    simp at hsucc
  · rw [if_neg ha]
    by_cases hc : ((Minter.executeMintCommand (some a) outcome).success &&
        optTruthy (Minter.executeMintCommand (some a) outcome).inscriptionId) = true
    · simp only [hc, if_true, Bool.false_eq_true, if_false]
    · simp only [hc, Bool.false_eq_true, if_false]

/-- Witness for the amended C5 theorem at a concrete run. -/
theorem attemptsIncrementedOnConfirmFailure_witness :
    Minter.processPendingMint (.output stdoutJson "") false
        { mintingAttempts := [], activeOperations := [] }
        { txid := "tx-two", amount := 2000, timestamp := 0,
          sender_address := some "S" } =
      { mintingAttempts := [("tx-two", 1)], activeOperations := [] } :=
  attemptsIncrementedOnConfirmFailure
    { mintingAttempts := [], activeOperations := [] }
    { txid := "tx-two", amount := 2000, timestamp := 0, sender_address := some "S" }
    (.output stdoutJson "") (by decide) (by simp) "S" rfl rfl rfl

/-- C6 counterexample: stderr carries the signal substrings, yet because
stdout parsed to an inscription id `executeMintCommand` reports success
(and the worker will go on to POST confirm). -/
theorem successDespiteStderrSignal_cex :
    (Minter.executeMintCommand (some "S")
        (.output stdoutJson "error: insufficient funds")).success = true ∧
    (Minter.executeMintCommand (some "S")
        (.output stdoutJson "error: insufficient funds")).inscriptionId =
      some (.jstr "abc123i0") ∧
    Minter.stderrSignalsFailure "error: insufficient funds" = true := by
  exact ⟨rfl, rfl, by decide⟩

/-- C6 (amended): the stderr signal substrings make the attempt a failure
only when stdout did not yield a (truthy) inscription id; when stdout
parses and the sender is non-falsy (so the subprocess ran at all),
`executeMintCommand` returns success regardless of stderr, because the
early `return` precedes the stderr check.  Without a truthy parsed id the
result is failure whatever stderr holds. -/
theorem stderrOnlyMattersWithoutParsedId :
    (∀ (sender stdout stderr : String) (id : JValue),
      (sender == "") = false →
      Minter.parseInscriptionId stdout = some id → jsTruthy id = true →
      Minter.executeMintCommand (some sender) (.output stdout stderr) =
        { success := true, inscriptionId := some id }) ∧
    (∀ (sender stdout stderr : String),
      optTruthy (if (stdout == "") = true then none
        else Minter.parseInscriptionId stdout) = false →
      Minter.executeMintCommand (some sender) (.output stdout stderr) =
        { success := false, inscriptionId := none }) := by
  constructor
  · intro sender stdout stderr id hsne hparse htruthy
    by_cases hz : (stdout == "") = true
    · have hz' : stdout = "" := by simpa using hz
      subst hz'
      rw [show Minter.parseInscriptionId "" = none from rfl] at hparse
      cases hparse
    · unfold Minter.executeMintCommand
      simp only [hsne, hz, Bool.false_eq_true, if_false, hparse, htruthy, if_true]
  · intro sender stdout stderr h
    unfold Minter.executeMintCommand
    by_cases hs : (sender == "") = true
    · simp only [hs, if_true]
    · simp only [hs, Bool.false_eq_true, if_false]
      by_cases hz : (stdout == "") = true
      · simp only [hz, if_true]
      · simp only [hz, Bool.false_eq_true, if_false] at h ⊢
        cases hp : Minter.parseInscriptionId stdout with
        | none => simp only [hp]
        | some id =>
          rw [hp] at h
          simp only [optTruthy] at h
          simp only [hp, h, Bool.false_eq_true, if_false]

/-- Witness for the amended C6 theorem: success despite a signalling stderr
on a concrete run, failure on unparseable stdout. -/
theorem stderrOnlyMattersWithoutParsedId_witness :
    Minter.executeMintCommand (some "S") (.output stdoutJson "failed") =
      { success := true, inscriptionId := some (.jstr "abc123i0") } ∧
    Minter.executeMintCommand (some "S") (.output "gibberish" "error") =
      { success := false, inscriptionId := none } :=
  ⟨stderrOnlyMattersWithoutParsedId.1 "S" stdoutJson "failed" (.jstr "abc123i0")
      (by decide) rfl rfl,
   stderrOnlyMattersWithoutParsedId.2 "S" "gibberish" "error" rfl⟩

/-- C7 counterexample: `mint.js`'s `parseInscriptionId` does not tolerate
the line format — on an `inscription_id: <value>` stdout it returns null
(JSON.parse throws), so the attempt is treated as a parse failure. -/
theorem lineFormatRejectedByMinter_cex :
    Minter.parseInscriptionId stdoutLine = none := by
  rfl

/-- One unfolding step of the draft worker's regex scan on a non-empty
input (zeta-reduced form of the cons arm). -/
theorem findTagMatch_cons (c : Char) (rest : List Char) :
    Part000.findTagMatch (c :: rest) =
      if Part000.tagChars.isPrefixOf (c :: rest) then
        (if ((List.drop Part000.tagChars.length (c :: rest)).takeWhile
              (fun ch => !jsWhitespaceChar ch)).isEmpty then Part000.findTagMatch rest
         else some ((List.drop Part000.tagChars.length (c :: rest)).takeWhile
              (fun ch => !jsWhitespaceChar ch)))
      else Part000.findTagMatch rest := rfl

/-- C7 (amended): the two tolerated formats are split across the two worker
drafts, not both handled by either parser.  `mint.js` accepts only the JSON
`inscriptions[0].id` format and returns null on the `inscription_id: <v>`
line; the unnamed draft's regex parser accepts only the line format (any
non-empty run of `\S` characters — complement of the JS `\s` class —
after the literal tag) and returns null on the JSON format; stdout matching
neither is a parse failure in both. -/
theorem parsingFormatsSplitAcrossDrafts :
    Minter.parseInscriptionId stdoutJson = some (.jstr "abc123i0") ∧
    Part000.parseInscriptionId stdoutJson = none ∧
    Part000.parseInscriptionId stdoutLine = some "abc123" ∧
    Minter.parseInscriptionId "no inscription here" = none ∧
    Part000.parseInscriptionId "no inscription here" = none ∧
    (∀ v : String, v.toList ≠ [] →
      (∀ c ∈ v.toList, (!jsWhitespaceChar c) = true) →
      Part000.parseInscriptionId ("inscription_id: " ++ v) = some v) := by
  refine ⟨rfl, rfl, rfl, rfl, rfl, ?_⟩
  intro v hne hns
  unfold Part000.parseInscriptionId
  rw [show ("inscription_id: " ++ v).toList = Part000.tagChars ++ v.toList from rfl]
  have hstep : Part000.findTagMatch (Part000.tagChars ++ v.toList) = some v.toList := by
    rw [show Part000.tagChars ++ v.toList =
      'i' :: (['n', 's', 'c', 'r', 'i', 'p', 't', 'i', 'o', 'n', '_', 'i', 'd', ':', ' ']
        ++ v.toList) from rfl]
    rw [findTagMatch_cons]
    have hpre : Part000.tagChars.isPrefixOf
        ('i' :: (['n', 's', 'c', 'r', 'i', 'p', 't', 'i', 'o', 'n', '_', 'i', 'd', ':', ' ']
          ++ v.toList)) = true := by
      show Part000.tagChars.isPrefixOf (Part000.tagChars ++ v.toList) = true
      simp [List.isPrefixOf_iff_prefix]
    rw [if_pos hpre]
    have hcap :
        (('i' :: (['n', 's', 'c', 'r', 'i', 'p', 't', 'i', 'o', 'n', '_', 'i', 'd', ':', ' ']
          ++ v.toList)).drop Part000.tagChars.length).takeWhile
            (fun ch => !jsWhitespaceChar ch) = v.toList := by
      show ((Part000.tagChars ++ v.toList).drop Part000.tagChars.length).takeWhile
        (fun ch => !jsWhitespaceChar ch) = v.toList
      rw [List.drop_left]
      exact List.takeWhile_eq_self_iff.mpr hns
    rw [hcap]
    rw [if_neg (by simpa using hne)]
  rw [hstep]
  show some (String.mk v.toList) = some v
  cases v
  rfl

/-- Witness for the amended C7 theorem: the line-format family at a
concrete value. -/
theorem parsingFormatsSplitAcrossDrafts_witness :
    Part000.parseInscriptionId ("inscription_id: " ++ "xyz9") = some "xyz9" :=
  parsingFormatsSplitAcrossDrafts.2.2.2.2.2 "xyz9" (by decide) (by decide)

/-- The amount fold with an arbitrary accumulator equals the accumulator
plus the spec's filtered sum. -/
theorem receivedAmount_foldl_general (vout : List TxOutput) (n : Nat) :
    vout.foldl
      (fun total output =>
        if output.scriptpubkey_address == some bitcoinAddress then total + output.value
        else total) n = n + specAmountSats vout := by
  induction vout generalizing n with
  | nil => simp [specAmountSats]
  | cons o l ih =>
    simp only [List.foldl_cons]
    by_cases ho : (o.scriptpubkey_address == some bitcoinAddress) = true
    · rw [if_pos ho, ih]
      simp [specAmountSats, List.filter_cons, ho]
      omega
    · rw [if_neg ho, ih]
      simp [specAmountSats, List.filter_cons, ho]

/-- C9: the amount both drafts compute is exactly the spec's
`Σ vout[i].value where vout[i].scriptpubkey_address = WATCHED_ADDRESS`, and
every persisted record carries that sum as `amount`. -/
theorem amountSatsIsFilteredSum :
    (∀ vout : List TxOutput, receivedAmountOf vout = specAmountSats vout) ∧
    (∀ (fd : String → Option Server4.TxDetails) (now : Nat) (db : Ledger)
        (t : UpstreamTx) (r : TxRecord),
      (Server4.processTransaction fd now db t).2 = some r →
        r.amount = specAmountSats t.vout) ∧
    (∀ (now : Nat) (db : Ledger) (t : UpstreamTx) (r : TxRecord),
      (Server.processTransaction now db t).2 = some r →
        r.amount = specAmountSats t.vout) := by
  have hfold : ∀ vout : List TxOutput, receivedAmountOf vout = specAmountSats vout := by
    intro vout
    unfold receivedAmountOf
    rw [receivedAmount_foldl_general]
    omega
  refine ⟨hfold, ?_, ?_⟩
  · intro fd now db t r h
    rw [Server4.processTransaction.eq_def] at h
    cases hfind : dbGet db t.txid with
    | some q => rw [hfind] at h; cases h
    | none =>
      rw [hfind] at h
      simp only [Option.some.injEq] at h
      subst h
      exact hfold t.vout
  · intro now db t r h
    rw [Server.processTransaction.eq_def] at h
    cases hfind : dbGet db t.txid with
    | some q => rw [hfind] at h; cases h
    | none =>
      rw [hfind] at h
      by_cases hz : (receivedAmountOf t.vout == 0) = true
      · rw [if_pos hz] at h; cases h
      · rw [if_neg hz] at h
        simp only [Option.some.injEq] at h
        subst h
        exact hfold t.vout

/-- Witness for C9: the duplicate-output transaction (two outputs of 1000
sats each to the watched address) is persisted with `amount = 2000`. -/
theorem amountSatsIsFilteredSum_witness :
    ({ txid := "tx-two", timestamp := 0, amount := 2000, block_height := none,
       requires_minting := true, minting_status := "pending",
       sender_address := some "S", confirmations := 0, inscription_id := none,
       inscription_timestamp := none } : TxRecord).amount =
      specAmountSats txTwoOutputs.vout ∧
    specAmountSats txTwoOutputs.vout = 2000 :=
  ⟨amountSatsIsFilteredSum.2.1
      (fun _ => some { vin := [{ prevout := some { scriptpubkey_address := some "S" } }] })
      0 [] txTwoOutputs _ (by decide),
   by decide⟩

/-- C8: ingestion is idempotent in both server drafts.  Replaying the same
upstream list over the result of ingesting it is the identity (even with a
different clock or detail oracle); replaying N+1 times equals one ingestion;
and a transaction whose txid already has a record is a no-op returning
null. -/
theorem ingestionIdempotent :
    (∀ (fd fd2 : String → Option Server4.TxDetails) (now now2 : Nat)
        (db : Ledger) (txs : List UpstreamTx),
      Server4.monitorTick fd2 now2 (Server4.monitorTick fd now db txs) txs =
        Server4.monitorTick fd now db txs) ∧
    (∀ (now now2 : Nat) (db : Ledger) (txs : List UpstreamTx),
      Server.monitorTick now2 (Server.monitorTick now db txs) txs =
        Server.monitorTick now db txs) ∧
    (∀ (fd : String → Option Server4.TxDetails) (now : Nat) (db : Ledger)
        (txs : List UpstreamTx) (n : Nat),
      (fun d => Server4.monitorTick fd now d txs)^[n + 1] db =
        Server4.monitorTick fd now db txs) ∧
    (∀ (fd : String → Option Server4.TxDetails) (now : Nat) (db : Ledger)
        (t : UpstreamTx) (q : TxRecord), dbGet db t.txid = some q →
      Server4.processTransaction fd now db t = (db, none)) ∧
    (∀ (now : Nat) (db : Ledger) (t : UpstreamTx) (q : TxRecord),
      dbGet db t.txid = some q → Server.processTransaction now db t = (db, none)) := by
  have h4 : ∀ (fd fd2 : String → Option Server4.TxDetails) (now now2 : Nat)
      (db : Ledger) (txs : List UpstreamTx),
      Server4.monitorTick fd2 now2 (Server4.monitorTick fd now db txs) txs =
        Server4.monitorTick fd now db txs :=
    fun fd fd2 now now2 db txs =>
      monitorTick4_id fd2 now2 _ txs (monitorTick4_hasAll fd now db txs)
  refine ⟨h4, ?_, ?_, pt4_skip, ptJs_skip⟩
  · intro now now2 db txs
    exact monitorTickJs_id now2 _ txs
      (fun t ht => (monitorTickJs_hasAll now db txs t ht).imp_left (fun h => h))
  · intro fd now db txs n
    induction n generalizing db with
    | zero => simp
    | succ m ih =>
      rw [Function.iterate_succ_apply]
      rw [ih]
      exact h4 fd fd now now db txs

/-- Witness for C8: re-ingesting a txid already in the table is a no-op. -/
theorem ingestionIdempotent_witness :
    Server4.processTransaction (fun _ => none) 3 [recPending]
      { txid := "tx-big", vout := [], block_height := none, vin := [] } =
      ([recPending], none) :=
  ingestionIdempotent.2.2.2.1 (fun _ => none) 3 [recPending]
    { txid := "tx-big", vout := [], block_height := none, vin := [] }
    recPending (by decide)

/-- C10: on a successful confirm-mint (txid found, record not completed) the
200 response's `transaction` field is the row as read before the UPDATE: its
`minting_status` is still the pre-confirm value (never `"completed"`) and it
carries no `inscription_id` (in any reachable state), even though the stored
row has just been set to `completed` with the request's inscription id — the
response never reflects the post-update state. -/
theorem confirmResponseIsPreUpdateRow (now : Nat) (db : Ledger) (tid : String)
    (iid : Option String) (r : TxRecord) (hreach : Reach db)
    (hne : (tid == "") = false) (hfind : dbGet db tid = some r)
    (hst : (r.minting_status == "completed") = false) :
    (confirmMint now db (some tid) iid).2 = .ok r ∧
    r.minting_status ≠ "completed" ∧
    r.inscription_id = none ∧
    dbGet (confirmMint now db (some tid) iid).1 tid =
      some { r with
              minting_status := "completed"
              inscription_id := iid
              inscription_timestamp := some now } := by
  have hmem : r ∈ db := by
    have hfind2 : db.find? (fun x => x.txid == tid) = some r := hfind
    exact List.mem_of_find?_eq_some hfind2
  have hstP : r.minting_status ≠ "completed" := by
    simpa using hst
  refine ⟨?_, hstP, ?_, ?_⟩
  · rw [confirmMint_found_not_completed now db tid iid r hne hfind hst]
  · exact (ledgerInv_reach hreach r hmem).2 hstP
  · rw [confirmMint_found_not_completed now db tid iid r hne hfind hst]
    exact confirm_dbGet_updated now db tid iid r hfind

/-- Witness for C10 on a concrete reachable ledger (one ingested pending
row, then confirmed). -/
theorem confirmResponseIsPreUpdateRow_witness :
    (confirmMint 9
        (Server4.processTransaction
          (fun _ => some { vin := [{ prevout := some { scriptpubkey_address := some "S" } }] })
          0 [] txTwoOutputs).1
        (some "tx-two") (some "i0")).2 =
      .ok { txid := "tx-two", timestamp := 0, amount := 2000, block_height := none,
            requires_minting := true, minting_status := "pending",
            sender_address := some "S", confirmations := 0, inscription_id := none,
            inscription_timestamp := none } ∧
    ({ txid := "tx-two", timestamp := 0, amount := 2000, block_height := none,
       requires_minting := true, minting_status := "pending",
       sender_address := some "S", confirmations := 0, inscription_id := none,
       inscription_timestamp := none } : TxRecord).minting_status ≠ "completed" ∧
    ({ txid := "tx-two", timestamp := 0, amount := 2000, block_height := none,
       requires_minting := true, minting_status := "pending",
       sender_address := some "S", confirmations := 0, inscription_id := none,
       inscription_timestamp := none } : TxRecord).inscription_id = none ∧
    dbGet (confirmMint 9
        (Server4.processTransaction
          (fun _ => some { vin := [{ prevout := some { scriptpubkey_address := some "S" } }] })
          0 [] txTwoOutputs).1
        (some "tx-two") (some "i0")).1 "tx-two" =
      some { txid := "tx-two", timestamp := 0, amount := 2000, block_height := none,
             requires_minting := true, minting_status := "completed",
             sender_address := some "S", confirmations := 0,
             inscription_id := some "i0", inscription_timestamp := some 9 } :=
  confirmResponseIsPreUpdateRow 9 _ "tx-two" (some "i0")
    { txid := "tx-two", timestamp := 0, amount := 2000, block_height := none,
      requires_minting := true, minting_status := "pending",
      sender_address := some "S", confirmations := 0, inscription_id := none,
      inscription_timestamp := none }
    (Reach.ingest4 _ 0 [] txTwoOutputs Reach.init)
    (by decide) (by decide) (by decide)
